import Mathlib

/-!
Shallow embedding of the conversion engine of batch_image_converter
(src/batch_image_converter/model.py and src/constants.py).

External effects are passed in explicitly: the filesystem is a list of
existing path strings (or boolean predicates for the directory checks), the
image codec is a pair of functions giving the decoded size of a source file
and the outcome of a save, the wall clock is a function from poll index to
whole seconds (timedelta.seconds is an integer count of whole seconds, so
the source comparison with 0.2 is true exactly when at least one whole
second elapsed), and the cooperative cancellation flag is a function giving
the flag value observed right after each progress emit (the flag can only
change while control is inside an emit callback, and the source checks it
immediately after each emit).
-/

namespace BatchImgConv

/-! ### Constants (src/constants.py) -/

def STATUS_OK : Nat := 0

def ERR_FOLDER_INVALID : Nat := 1

def ERR_FOLDER_DOES_NOT_EXIST : Nat := 2

def ERR_PATH_IS_NOT_FOLDER : Nat := 4

/-- Error records appended to the ERRORS list of a file metadata dict during
conversion: the source appends one-key dicts of the shapes
ERR_IMAGE_OPEN -> True, ERR_IMAGE_SAVE -> ext, and unknown-error -> ext. -/
inductive ErrorRecord where
  | imageOpen : ErrorRecord
  | imageSave (ext : String) : ErrorRecord
  | unknownError (ext : String) : ErrorRecord
deriving DecidableEq, Repr

/-- The per-file metadata dict: ERRORS and OUTPUTS lists.  A successful save
appends the one-key dict output-path -> True, modelled by the path string. -/
structure FileMetadata where
  errors : List ErrorRecord
  outputs : List String
deriving DecidableEq, Repr

/-- new_file_metadata in model.py. -/
def new_file_metadata : FileMetadata := ⟨[], []⟩

/-! ### Path string helpers (os.path operations used by the source) -/

/-- os.path.join for a directory and a name, as used on already absolute
directory paths without trailing separator. -/
def joinPath (dir name : String) : String := dir ++ "/" ++ name

def lastIdxAux (c : Char) : List Char → Nat → Option Nat
  | [], _ => none
  | x :: xs, i =>
    match lastIdxAux c xs (i + 1) with
    | some j => some j
    | none => if x = c then some i else none

/-- Index of the last occurrence of a character in a character list. -/
def lastIdx (c : Char) (l : List Char) : Option Nat := lastIdxAux c l 0

/-- os.path.splitext: split off the extension after the final dot of the last
path component, unless every character between the separator and that dot is
itself a dot (a leading-dot filename has no extension). -/
def splitext (p : String) : String × String :=
  let cs := p.toList
  match lastIdx '.' cs with
  | none => (p, "")
  | some di =>
    let si : Nat :=
      match lastIdx '/' cs with
      | none => 0
      | some k => k + 1
    if si ≤ di then
      if ((cs.drop si).take (di - si)).any (fun c => c != '.') then
        (String.mk (cs.take di), String.mk (cs.drop di))
      else (p, "")
    else (p, "")

/-- os.path.basename. -/
def basename (p : String) : String :=
  let cs := p.toList
  match lastIdx '/' cs with
  | none => p
  | some k => String.mk (cs.drop (k + 1))

/-- The str.strip call with a dot argument: remove dots from both ends. -/
def stripDots (s : String) : String :=
  String.mk (((s.toList.dropWhile (fun c => c == '.')).reverse.dropWhile
      (fun c => c == '.')).reverse)

/-- EXT_MATCHERS from src/constants.py: each canonical extension owns a
case-insensitive full-match pattern over the file extension with dots
stripped; jpg also accepts jpeg, tiff also accepts tif.  The discovery loop
asks whether any matcher accepts the extension, which is equivalent to this
disjunction of case-folded comparisons. -/
def extension_matched (file_ext : String) : Bool :=
  let e := String.mk ((stripDots file_ext).toList.map Char.toLower)
  e == "bmp" || e == "gif" || e == "jpg" || e == "jpeg" || e == "png" ||
    e == "tif" || e == "tiff" || e == "webp"

/-! ### Target set as an insertion-ordered association list (a py dict) -/

/-- Assignment into a dict: overwrite in place when the key is present,
append otherwise (Python dicts preserve insertion order). -/
def dictSet (m : List (String × FileMetadata)) (k : String) (v : FileMetadata) :
    List (String × FileMetadata) :=
  if m.any (fun kv => kv.1 == k) then
    m.map (fun kv => if kv.1 == k then (k, v) else kv)
  else m ++ [(k, v)]

/-- The inner file loop of start_file_search: for each filename in the walk
entry, build the full path, split off the extension, and when some matcher
accepts it, assign a fresh metadata dict under the full path. -/
def addMatches (targets : List (String × FileMetadata)) (dirpath : String)
    (filenames : List String) : List (String × FileMetadata) :=
  filenames.foldl
    (fun acc fname =>
      let filepath := joinPath dirpath fname
      let file_ext := (splitext filepath).2
      if extension_matched file_ext then dictSet acc filepath new_file_metadata
      else acc)
    targets

/-! ### File discovery (ConversionManager.start_file_search) -/

/-- One os.walk tuple: the directory path and the filenames inside it (the
dirnames component is unused by the source loop). -/
structure WalkEntry where
  dirpath : String
  filenames : List String
deriving DecidableEq, Repr

/-- Environment of a discovery run: the wall-clock value (whole seconds) when
delta_timestamp is initialised, the wall-clock value at the poll of each walk
iteration, and the cancel_folder_open_flag value observed right after the
progress emit of each iteration. -/
structure SearchEnv where
  startTime : Nat
  pollTime : Nat → Nat
  cancelAfterEmit : Nat → Bool

/-- Result of a discovery run: the returned dict value (TARGETS), the
returned ERRORS key list, the returned CANCELED flag, plus the engine state
after the call (self.target_paths and self.source_path) and the sequence of
emitted progress reports (match count, files_searched). -/
structure SearchResult where
  targets : List (String × FileMetadata)
  erroredKeys : List String
  canceled : Bool
  stateTargets : List (String × FileMetadata)
  stateSourcePath : String
  reports : List (Nat × Nat)
deriving DecidableEq, Repr

/-- The returned ERRORS value of the completed branches: keys whose metadata
has a non-empty (truthy) ERRORS list. -/
def erroredFilter (m : List (String × FileMetadata)) : List String :=
  (m.filter (fun kv => !kv.2.errors.isEmpty)).map Prod.fst

/-- The walk loop of start_file_search.  files_searched counts walk tuples
(directories).  The poll fires when files_searched is 1 or a multiple of 100;
inside the poll, the progress emit and the cancellation check happen only
when the whole-second clock moved past delta_timestamp (the source compares
the integer timedelta.seconds with 0.2).  On observed cancellation the source
calls clear_source_path, which rebinds self.target_paths to a fresh empty
dict, while the local target_paths alias (returned as TARGETS) still holds
the partial matches. -/
def start_file_search_go (env : SearchEnv) (sourcePath : String) :
    List WalkEntry → List (String × FileMetadata) → Nat → Nat →
    List (Nat × Nat) → SearchResult
  | [], targets, _files_searched, _delta, reports =>
    ⟨targets, erroredFilter targets, false, targets, sourcePath, reports⟩
  | entry :: rest, targets, files_searched, delta, reports =>
    if (files_searched + 1) % 100 == 0 || files_searched + 1 == 1 then
      if 0 < env.pollTime (files_searched + 1) - delta then
        if env.cancelAfterEmit (files_searched + 1) then
          ⟨targets, [], true, [], "",
            reports ++ [(targets.length, files_searched + 1)]⟩
        else
          start_file_search_go env sourcePath rest
            (addMatches targets entry.dirpath entry.filenames)
            (files_searched + 1) (env.pollTime (files_searched + 1))
            (reports ++ [(targets.length, files_searched + 1)])
      else
        start_file_search_go env sourcePath rest
          (addMatches targets entry.dirpath entry.filenames)
          (files_searched + 1) delta reports
    else
      start_file_search_go env sourcePath rest
        (addMatches targets entry.dirpath entry.filenames)
        (files_searched + 1) delta reports

/-- ConversionManager.start_file_search over a given walk sequence, starting
from the current self.target_paths dict and self.source_path. -/
def start_file_search (env : SearchEnv) (source_path : String)
    (init_targets : List (String × FileMetadata)) (walk : List WalkEntry) :
    SearchResult :=
  start_file_search_go env source_path walk init_targets 0 env.startTime []

/-! ### Safe output naming (ConversionManager.get_safe_output_path) -/

/-- Zero pad a counter to at least four digits, the format spec 0>4. -/
def pad4 (n : Nat) : String :=
  String.mk (List.replicate (4 - (toString n).length) '0') ++ toString n

/-- First candidate name: output_dir/base.ext. -/
def candBase (dir base ext : String) : String := joinPath dir (base ++ "." ++ ext)

/-- Numbered candidate name: output_dir/base.NNNN.ext. -/
def candNum (dir base ext : String) (c : Nat) : String :=
  joinPath dir (base ++ "." ++ pad4 c ++ "." ++ ext)

/-- The while loop of get_safe_output_path.  The counter parameter is the
value the source increments to at the top of the body; the unhandled
exception raised when it reaches 10000 is modelled as the error value.  The
fuel parameter only bounds the recursion and is chosen large enough that the
zero-fuel branch is unreachable from the entry point. -/
def safe_go (fsys : List String) (dir base ext : String) :
    Nat → Nat → String → Except Unit String
  | 0, _, _ => .error ()
  | fuel + 1, counter, current =>
    if fsys.contains current then
      if counter = 10000 then .error ()
      else safe_go fsys dir base ext fuel (counter + 1) (candNum dir base ext counter)
    else .ok current

/-- ConversionManager.get_safe_output_path against a filesystem given as the
list of existing paths. -/
def get_safe_output_path (fsys : List String)
    (output_path src_path extension : String) : Except Unit String :=
  safe_go fsys output_path (basename (splitext src_path).1) extension 10002 0
    (candBase output_path (basename (splitext src_path).1) extension)

/-! ### Batch conversion (ConversionManager.start_conversion) -/

/-- Outcome of one save call at the image codec boundary: success, an
OSError, or any other exception. -/
inductive SaveOutcome where
  | ok : SaveOutcome
  | ioError : SaveOutcome
  | otherError : SaveOutcome
deriving DecidableEq, Repr

/-- Environment of a conversion run: the codec open result per source path
(none is an OSError from Image.open; a decoded image is its pixel size), the
outcome of a save per output path, and the cancel_save_flag value observed
right after each progress emit (indexed by emit count). -/
structure ConvEnv where
  openImage : String → Option (Nat × Nat)
  save : String → SaveOutcome
  cancelAfterEmit : Nat → Bool

/-- State threaded through the per-format inner loop for one source file:
the current in-memory image (reassigned by resize), the metadata dict of the
entry, the filesystem, the images_written flag, and the sizes requested from
the codec resize calls so far (in order). -/
structure FormatState where
  img : Nat × Nat
  meta : FileMetadata
  fsys : List String
  images_written : Bool
  resizes : List (Nat × Nat)
deriving DecidableEq, Repr

/-- The conditional resize of the format loop: when modifier_scale is not
100, user_image is reassigned to the image resized to size times scale over
100 per axis (the int truncation of the source is Nat floor division here,
which is exact for all representable image sizes); with scale 100 no resize
call is made and the image is unchanged. -/
def resizedImg (modifier_scale : Nat) (img : Nat × Nat) : Nat × Nat :=
  if modifier_scale ≠ 100 then
    (img.1 * modifier_scale / 100, img.2 * modifier_scale / 100)
  else img

/-- The resize-call trace of one format iteration: a resize request is
recorded exactly when modifier_scale is not 100, with the requested size. -/
def resizedList (modifier_scale : Nat) (img : Nat × Nat)
    (resizes : List (Nat × Nat)) : List (Nat × Nat) :=
  if modifier_scale ≠ 100 then
    resizes ++ [(img.1 * modifier_scale / 100, img.2 * modifier_scale / 100)]
  else resizes

/-- One iteration of the output-format loop of start_conversion: compute the
safe output path (an exhausted name search raises a plain Exception, caught
by the generic handler appending an unknown-error record); when
modifier_scale is not 100, resize the current image to size times scale over
100 per axis (integer division models the int truncation of the source,
which is exact for all representable image sizes) and reassign user_image;
then save, appending an output record on success, an ERR_IMAGE_SAVE record
on OSError, and an unknown-error record on any other exception.  A failed
save leaves no file behind in this model; nothing later reads such a path. -/
def processFormat (env : ConvEnv) (output_path : String) (modifier_scale : Nat)
    (src : String) (st : FormatState) (output_ext : String) : FormatState :=
  match get_safe_output_path st.fsys output_path src output_ext with
  | .error _ =>
    { st with meta := ⟨st.meta.errors ++ [ErrorRecord.unknownError output_ext],
                      st.meta.outputs⟩ }
  | .ok outPath =>
    match env.save outPath with
    | .ok =>
      ⟨resizedImg modifier_scale st.img,
        ⟨st.meta.errors, st.meta.outputs ++ [outPath]⟩,
        st.fsys ++ [outPath], true, resizedList modifier_scale st.img st.resizes⟩
    | .ioError =>
      ⟨resizedImg modifier_scale st.img,
        ⟨st.meta.errors ++ [ErrorRecord.imageSave output_ext], st.meta.outputs⟩,
        st.fsys, st.images_written, resizedList modifier_scale st.img st.resizes⟩
    | .otherError =>
      ⟨resizedImg modifier_scale st.img,
        ⟨st.meta.errors ++ [ErrorRecord.unknownError output_ext], st.meta.outputs⟩,
        st.fsys, st.images_written, resizedList modifier_scale st.img st.resizes⟩

/-- The list comprehension over self.output_extension_filter keeping the
extensions whose flag is set, in dict iteration order. -/
def enabled_exts (output_extension_filter : List (String × Bool)) : List String :=
  (output_extension_filter.filter Prod.snd).map Prod.fst

/-- Result of processing one target entry: the mutated metadata, the
filesystem after any writes, whether source_files_handled advances (true on
open failure; equal to images_written on successful open), and the resize
sizes requested while processing this entry. -/
structure EntryResult where
  meta : FileMetadata
  fsys : List String
  handledInc : Bool
  resizes : List (Nat × Nat)
deriving DecidableEq, Repr

/-- Processing of one target entry in start_conversion: try to open the
image (an OSError appends ERR_IMAGE_OPEN, counts the file as handled and
continues), then run the per-format loop over the enabled output
extensions. -/
def processEntry (env : ConvEnv) (output_path : String)
    (filt : List (String × Bool)) (modifier_scale : Nat) (fsys : List String)
    (src : String) (meta : FileMetadata) : EntryResult :=
  match env.openImage src with
  | none => ⟨⟨meta.errors ++ [ErrorRecord.imageOpen], meta.outputs⟩, fsys, true, []⟩
  | some sz =>
    ⟨((enabled_exts filt).foldl (processFormat env output_path modifier_scale src)
        ⟨sz, meta, fsys, false, []⟩).meta,
      ((enabled_exts filt).foldl (processFormat env output_path modifier_scale src)
        ⟨sz, meta, fsys, false, []⟩).fsys,
      ((enabled_exts filt).foldl (processFormat env output_path modifier_scale src)
        ⟨sz, meta, fsys, false, []⟩).images_written,
      ((enabled_exts filt).foldl (processFormat env output_path modifier_scale src)
        ⟨sz, meta, fsys, false, []⟩).resizes⟩

/-- Result of a conversion run: the returned TARGETS dict, the returned
ERRORS key list, the returned CANCELED flag, the final
source_files_handled counter, the resize calls issued to the codec tagged
with the source path, and the emitted progress reports
(path, handled so far, total). -/
structure ConvResult where
  targets : List (String × FileMetadata)
  erroredKeys : List String
  canceled : Bool
  handled : Nat
  resizeCalls : List (String × Nat × Nat)
  reports : List (String × Nat × Nat)
deriving DecidableEq, Repr

/-- Loop state of start_conversion: entries processed so far, the
filesystem, source_files_handled, the number of progress emits so far, the
resize calls and reports accumulated, and the loop variable image_path. -/
structure ConvState where
  acc : List (String × FileMetadata)
  fsys : List String
  handled : Nat
  emitIdx : Nat
  resizeCalls : List (String × Nat × Nat)
  reports : List (String × Nat × Nat)
  lastPath : String
deriving DecidableEq, Repr

/-- The entry loop of start_conversion.  Each iteration first emits a
progress report and then polls cancel_save_flag; on cancellation the source
writes the conversion log and returns the full dict with a literal empty
ERRORS list and CANCELED true.  After the loop the source writes the
conversion log (this only adds a file nothing later reads), emits a final
progress report with the last loop path, and returns the dict, the errored
key filter, and the flag as read after that final emit. -/
def start_conversion_go (env : ConvEnv) (output_path : String)
    (filt : List (String × Bool)) (modifier_scale : Nat) (total : Nat) :
    List (String × FileMetadata) → ConvState → ConvResult
  | [], st =>
    ⟨st.acc, erroredFilter st.acc, env.cancelAfterEmit st.emitIdx, st.handled,
      st.resizeCalls, st.reports ++ [(st.lastPath, st.handled, total)]⟩
  | (src, meta) :: rest, st =>
    if env.cancelAfterEmit st.emitIdx then
      ⟨st.acc ++ (src, meta) :: rest, [], true, st.handled, st.resizeCalls,
        st.reports ++ [(src, st.handled, total)]⟩
    else
      start_conversion_go env output_path filt modifier_scale total rest
        ⟨st.acc ++ [(src, (processEntry env output_path filt modifier_scale
            st.fsys src meta).meta)],
          (processEntry env output_path filt modifier_scale st.fsys src meta).fsys,
          st.handled + (if (processEntry env output_path filt modifier_scale
            st.fsys src meta).handledInc then 1 else 0),
          st.emitIdx + 1,
          st.resizeCalls ++ (processEntry env output_path filt modifier_scale
            st.fsys src meta).resizes.map (fun z => (src, z.1, z.2)),
          st.reports ++ [(src, st.handled, total)], src⟩

/-- ConversionManager.start_conversion over the current target dict, with
the configured output path, output extension filter, and scale modifier. -/
def start_conversion (env : ConvEnv) (output_path : String)
    (filt : List (String × Bool)) (modifier_scale : Nat) (fsys : List String)
    (target_paths : List (String × FileMetadata)) : ConvResult :=
  start_conversion_go env output_path filt modifier_scale target_paths.length
    target_paths ⟨[], fsys, 0, 0, [], [], ""⟩

/-! ### Path setters (set_source_path / set_output_path) -/

/-- Filesystem interface used by the path setters. -/
structure Fs where
  pathExists : String → Bool
  isDir : String → Bool
  absPath : String → String

/-- The engine configuration state touched by the setters. -/
structure MgrState where
  source_path : String
  output_path : String
  target_paths : List (String × FileMetadata)
  hasTimestamp : Bool
deriving DecidableEq, Repr

/-- ConversionManager.clear_source_path. -/
def clear_source_path (st : MgrState) : MgrState :=
  { st with source_path := "", target_paths := [], hasTimestamp := false }

/-- ConversionManager.set_source_path.  The source line testing existence
reads if not os.path.exists: without calling the function, so the condition
tests the truthiness of the function object itself and the
does-not-exist branch can never be taken; a nonexistent path falls through
to the isdir test instead. -/
def set_source_path (fsys : Fs) (st : MgrState) (folder_path : String) :
    Nat × MgrState :=
  if folder_path ≠ "" then
    let source_path := fsys.absPath folder_path
    if (false : Bool) then (ERR_FOLDER_DOES_NOT_EXIST, st)
    else if !(fsys.isDir folder_path) then (ERR_PATH_IS_NOT_FOLDER, st)
    else
      let st2 := clear_source_path st
      (STATUS_OK, { st2 with source_path := source_path, hasTimestamp := true })
  else (ERR_FOLDER_INVALID, st)

/-- ConversionManager.set_output_path, with the same dead existence test as
set_source_path. -/
def set_output_path (fsys : Fs) (st : MgrState) (folder_path : String) :
    Nat × MgrState :=
  if folder_path ≠ "" then
    let output_path := fsys.absPath folder_path
    if (false : Bool) then (ERR_FOLDER_DOES_NOT_EXIST, st)
    else if !(fsys.isDir folder_path) then (ERR_PATH_IS_NOT_FOLDER, st)
    else (STATUS_OK, { st with output_path := output_path })
  else (ERR_FOLDER_INVALID, st)

/-! ### Helper lemmas and claim theorems -/


lemma search_go_canceled_state (env : SearchEnv) (sourcePath : String) :
    ∀ (walk : List WalkEntry) (targets : List (String × FileMetadata))
      (files_searched delta : Nat) (reports : List (Nat × Nat)),
      (start_file_search_go env sourcePath walk targets files_searched delta
          reports).canceled = true →
      (start_file_search_go env sourcePath walk targets files_searched delta
          reports).stateTargets = [] ∧
      (start_file_search_go env sourcePath walk targets files_searched delta
          reports).stateSourcePath = "" ∧
      (start_file_search_go env sourcePath walk targets files_searched delta
          reports).erroredKeys = [] := by
  intro walk
  induction walk with
  | nil =>
    intro targets files_searched delta reports h
    simp [start_file_search_go] at h
  | cons entry rest ih =>
    intro targets files_searched delta reports h
    rw [start_file_search_go] at h ⊢
    split at h
    next hmod =>
      rw [if_pos hmod]
      split at h
      next htime =>
        rw [if_pos htime]
        split at h
        next hcan => rw [if_pos hcan]; exact ⟨rfl, rfl, rfl⟩
        next hcan => rw [if_neg hcan]; exact ih _ _ _ _ h
      next htime => rw [if_neg htime]; exact ih _ _ _ _ h
    next hmod => rw [if_neg hmod]; exact ih _ _ _ _ h

lemma search_go_canceled_targets (env : SearchEnv) (sourcePath : String) :
    ∀ (walk : List WalkEntry) (targets : List (String × FileMetadata))
      (files_searched delta : Nat) (reports : List (Nat × Nat)),
      (start_file_search_go env sourcePath walk targets files_searched delta
          reports).canceled = true →
      ∃ pre entry post, walk = pre ++ entry :: post ∧
        (start_file_search_go env sourcePath walk targets files_searched delta
            reports).targets =
          pre.foldl (fun acc en => addMatches acc en.dirpath en.filenames)
            targets := by
  intro walk
  induction walk with
  | nil =>
    intro targets files_searched delta reports h
    simp [start_file_search_go] at h
  | cons entry rest ih =>
    intro targets files_searched delta reports h
    rw [start_file_search_go] at h ⊢
    split at h
    next hmod =>
      rw [if_pos hmod]
      split at h
      next htime =>
        rw [if_pos htime]
        split at h
        next hcan =>
          rw [if_pos hcan]
          exact ⟨[], entry, rest, rfl, rfl⟩
        next hcan =>
          rw [if_neg hcan]
          obtain ⟨pre, en2, post, hsplit, htg⟩ := ih _ _ _ _ h
          exact ⟨entry :: pre, en2, post, by rw [hsplit]; rfl,
            by rw [htg]; simp⟩
      next htime =>
        rw [if_neg htime]
        obtain ⟨pre, en2, post, hsplit, htg⟩ := ih _ _ _ _ h
        exact ⟨entry :: pre, en2, post, by rw [hsplit]; rfl,
          by rw [htg]; simp⟩
    next hmod =>
      rw [if_neg hmod]
      obtain ⟨pre, en2, post, hsplit, htg⟩ := ih _ _ _ _ h
      exact ⟨entry :: pre, en2, post, by rw [hsplit]; rfl,
        by rw [htg]; simp⟩

lemma dictSet_empty_errors (m : List (String × FileMetadata)) (k : String)
    (hm : ∀ kv ∈ m, kv.2.errors = ([] : List ErrorRecord)) :
    ∀ kv ∈ dictSet m k new_file_metadata, kv.2.errors = [] := by
  intro kv hkv
  unfold dictSet at hkv
  split at hkv
  · obtain ⟨kv0, hkv0, rfl⟩ := List.mem_map.mp hkv
    split
    · rfl
    · exact hm kv0 hkv0
  · rcases List.mem_append.mp hkv with h | h
    · exact hm kv h
    · simp only [List.mem_singleton] at h
      subst h
      rfl

lemma addMatches_empty_errors (dirpath : String) :
    ∀ (filenames : List String) (targets : List (String × FileMetadata)),
      (∀ kv ∈ targets, kv.2.errors = ([] : List ErrorRecord)) →
      ∀ kv ∈ addMatches targets dirpath filenames, kv.2.errors = [] := by
  intro filenames
  induction filenames with
  | nil =>
    intro targets h kv hkv
    exact h kv hkv
  | cons f fs ih =>
    intro targets h kv hkv
    unfold addMatches at hkv
    rw [List.foldl_cons] at hkv
    refine ih _ ?_ kv hkv
    dsimp only
    split
    · exact dictSet_empty_errors targets _ h
    · exact h

lemma erroredFilter_empty (targets : List (String × FileMetadata))
    (h : ∀ kv ∈ targets, kv.2.errors = ([] : List ErrorRecord)) :
    erroredFilter targets = [] := by
  unfold erroredFilter
  rw [List.filter_eq_nil_iff.mpr]
  · rfl
  · intro kv hkv
    simp [h kv hkv]

lemma search_go_errored (env : SearchEnv) (sourcePath : String) :
    ∀ (walk : List WalkEntry) (targets : List (String × FileMetadata))
      (files_searched delta : Nat) (reports : List (Nat × Nat)),
      (∀ kv ∈ targets, kv.2.errors = ([] : List ErrorRecord)) →
      (start_file_search_go env sourcePath walk targets files_searched delta
          reports).erroredKeys =
        erroredFilter (start_file_search_go env sourcePath walk targets
          files_searched delta reports).targets := by
  intro walk
  induction walk with
  | nil =>
    intro targets files_searched delta reports _h
    rw [start_file_search_go]
  | cons entry rest ih =>
    intro targets files_searched delta reports h
    rw [start_file_search_go]
    split
    next hmod =>
      split
      next htime =>
        split
        next hcan => exact (erroredFilter_empty targets h).symm
        next hcan => exact ih _ _ _ _ (addMatches_empty_errors _ _ _ h)
      next htime => exact ih _ _ _ _ (addMatches_empty_errors _ _ _ h)
    next hmod => exact ih _ _ _ _ (addMatches_empty_errors _ _ _ h)

lemma search_go_no_reports (env : SearchEnv) (sourcePath : String)
    (ht : ∀ i, env.pollTime i ≤ env.startTime) :
    ∀ (walk : List WalkEntry) (targets : List (String × FileMetadata))
      (files_searched : Nat) (reports : List (Nat × Nat)),
      (start_file_search_go env sourcePath walk targets files_searched
          env.startTime reports).reports = reports := by
  intro walk
  induction walk with
  | nil =>
    intro targets files_searched reports
    rw [start_file_search_go]
  | cons entry rest ih =>
    intro targets files_searched reports
    rw [start_file_search_go]
    have hz : env.pollTime (files_searched + 1) - env.startTime = 0 :=
      Nat.sub_eq_zero_of_le (ht _)
    split
    next hmod =>
      rw [if_neg (by rw [hz]; exact Nat.lt_irrefl 0)]
      exact ih _ _ _
    next hmod => exact ih _ _ _

lemma processFormat_record (env : ConvEnv) (op : String) (scl : Nat) (src : String)
    (st : FormatState) (ext : String) :
    ((∃ e2, (e2 = ErrorRecord.imageSave ext ∨ e2 = ErrorRecord.unknownError ext) ∧
        (processFormat env op scl src st ext).meta.errors = st.meta.errors ++ [e2] ∧
        (processFormat env op scl src st ext).meta.outputs = st.meta.outputs ∧
        (processFormat env op scl src st ext).images_written = st.images_written) ∨
      (∃ o, (processFormat env op scl src st ext).meta.errors = st.meta.errors ∧
        (processFormat env op scl src st ext).meta.outputs = st.meta.outputs ++ [o] ∧
        (processFormat env op scl src st ext).images_written = true)) := by
  unfold processFormat
  split
  · exact Or.inl ⟨ErrorRecord.unknownError ext, Or.inr rfl, rfl, rfl, rfl⟩
  next outPath _heq =>
    split
    · exact Or.inr ⟨outPath, rfl, rfl, rfl⟩
    · exact Or.inl ⟨ErrorRecord.imageSave ext, Or.inl rfl, rfl, rfl, rfl⟩
    · exact Or.inl ⟨ErrorRecord.unknownError ext, Or.inr rfl, rfl, rfl, rfl⟩

lemma fold_record_count (env : ConvEnv) (op : String) (scl : Nat) (src : String) :
    ∀ (exts : List String) (st : FormatState),
      (exts.foldl (processFormat env op scl src) st).meta.outputs.length +
        (exts.foldl (processFormat env op scl src) st).meta.errors.length =
      st.meta.outputs.length + st.meta.errors.length + exts.length := by
  intro exts
  induction exts with
  | nil => intro st; simp
  | cons e es ih =>
    intro st
    rw [List.foldl_cons, ih]
    rcases processFormat_record env op scl src st e with
      ⟨e2, _, he, ho, _⟩ | ⟨o, he, ho, _⟩ <;>
      · rw [he, ho]
        simp
        omega

lemma fold_error_shape (env : ConvEnv) (op : String) (scl : Nat) (src : String) :
    ∀ (exts : List String) (st : FormatState),
      (∀ e2 ∈ st.meta.errors,
        ∃ x, e2 = ErrorRecord.imageSave x ∨ e2 = ErrorRecord.unknownError x) →
      ∀ e2 ∈ (exts.foldl (processFormat env op scl src) st).meta.errors,
        ∃ x, e2 = ErrorRecord.imageSave x ∨ e2 = ErrorRecord.unknownError x := by
  intro exts
  induction exts with
  | nil => intro st h; exact h
  | cons e es ih =>
    intro st h
    rw [List.foldl_cons]
    refine ih _ ?_
    rcases processFormat_record env op scl src st e with
      ⟨e2, hshape, he, _, _⟩ | ⟨o, he, _, _⟩
    · rw [he]
      intro x hx
      rcases List.mem_append.mp hx with hx | hx
      · exact h x hx
      · simp only [List.mem_singleton] at hx
        subst hx
        exact ⟨e, hshape⟩
    · rw [he]
      exact h

lemma fold_outputs_mono (env : ConvEnv) (op : String) (scl : Nat) (src : String) :
    ∀ (exts : List String) (st : FormatState),
      st.meta.outputs.length ≤
        (exts.foldl (processFormat env op scl src) st).meta.outputs.length := by
  intro exts
  induction exts with
  | nil => intro st; exact Nat.le_refl _
  | cons e es ih =>
    intro st
    rw [List.foldl_cons]
    refine Nat.le_trans ?_ (ih _)
    rcases processFormat_record env op scl src st e with
      ⟨e2, _, _, ho, _⟩ | ⟨o, _, ho, _⟩ <;> simp [ho]

lemma fold_written_iff (env : ConvEnv) (op : String) (scl : Nat) (src : String) :
    ∀ (exts : List String) (st : FormatState),
      ((exts.foldl (processFormat env op scl src) st).images_written = true ↔
        st.images_written = true ∨
          st.meta.outputs.length <
            (exts.foldl (processFormat env op scl src) st).meta.outputs.length) := by
  intro exts
  induction exts with
  | nil =>
    intro st
    simp
  | cons e es ih =>
    intro st
    rw [List.foldl_cons]
    rcases processFormat_record env op scl src st e with
      ⟨e2, _, _, ho, hw⟩ | ⟨o, _, ho, hw⟩
    · rw [ih, hw, ho]
    · rw [ih, hw, ho]
      constructor
      · rintro (h | h)
        · right
          have h2 := fold_outputs_mono env op scl src es (processFormat env op scl src st e)
          rw [ho] at h2
          exact Nat.lt_of_lt_of_le (by simp) h2
        · right
          exact Nat.lt_of_lt_of_le (by simp) (Nat.le_of_lt h)
      · intro _
        left
        rfl

lemma processFormat_resize (env : ConvEnv) (op : String) (scl : Nat) (src : String)
    (st : FormatState) (ext : String) :
    (((processFormat env op scl src st ext).resizes = st.resizes ∧
        (processFormat env op scl src st ext).img = st.img) ∨
      (scl ≠ 100 ∧
        (processFormat env op scl src st ext).img =
          (st.img.1 * scl / 100, st.img.2 * scl / 100) ∧
        (processFormat env op scl src st ext).resizes =
          st.resizes ++ [(st.img.1 * scl / 100, st.img.2 * scl / 100)])) := by
  unfold processFormat
  split
  · exact Or.inl ⟨rfl, rfl⟩
  next outPath _heq =>
    by_cases hs : scl = 100
    · split <;>
        exact Or.inl ⟨by simp [resizedList, hs], by simp [resizedImg, hs]⟩
    · split <;>
        exact Or.inr ⟨hs, by simp [resizedImg, hs], by simp [resizedList, hs]⟩

lemma fold_resizes_suffix (env : ConvEnv) (op : String) (scl : Nat) (src : String) :
    ∀ (exts : List String) (st : FormatState),
      ∃ t, (exts.foldl (processFormat env op scl src) st).resizes =
        st.resizes ++ t := by
  intro exts
  induction exts with
  | nil => intro st; exact ⟨[], by simp⟩
  | cons e es ih =>
    intro st
    rw [List.foldl_cons]
    obtain ⟨t, ht⟩ := ih (processFormat env op scl src st e)
    rcases processFormat_resize env op scl src st e with ⟨hr, _⟩ | ⟨_, _, hr⟩
    · exact ⟨t, by rw [ht, hr]⟩
    · refine ⟨(st.img.1 * scl / 100, st.img.2 * scl / 100) :: t, ?_⟩
      rw [ht, hr]
      simp

lemma fold_resizes_100 (env : ConvEnv) (op : String) (scl : Nat) (src : String)
    (hs : scl = 100) :
    ∀ (exts : List String) (st : FormatState),
      (exts.foldl (processFormat env op scl src) st).resizes = st.resizes := by
  intro exts
  induction exts with
  | nil => intro st; rfl
  | cons e es ih =>
    intro st
    rw [List.foldl_cons, ih]
    rcases processFormat_resize env op scl src st e with ⟨hr, _⟩ | ⟨hne, _, _⟩
    · exact hr
    · exact absurd hs hne

lemma fold_first_resize (env : ConvEnv) (op : String) (scl : Nat) (src : String) :
    ∀ (exts : List String) (st : FormatState), st.resizes = [] →
      (((exts.foldl (processFormat env op scl src) st).resizes = [] ∧
          (exts.foldl (processFormat env op scl src) st).img = st.img) ∨
        ∃ t, (exts.foldl (processFormat env op scl src) st).resizes =
          (st.img.1 * scl / 100, st.img.2 * scl / 100) :: t) := by
  intro exts
  induction exts with
  | nil => intro st h; exact Or.inl ⟨h, rfl⟩
  | cons e es ih =>
    intro st h
    rw [List.foldl_cons]
    rcases processFormat_resize env op scl src st e with ⟨hr, hi⟩ | ⟨_, hi, hr⟩
    · rcases ih (processFormat env op scl src st e) (by rw [hr]; exact h) with
        ⟨h1, h2⟩ | ⟨t, h1⟩
      · exact Or.inl ⟨h1, by rw [h2, hi]⟩
      · exact Or.inr ⟨t, by rw [h1, hi]⟩
    · obtain ⟨t, ht⟩ := fold_resizes_suffix env op scl src es
        (processFormat env op scl src st e)
    -- the step recorded the first resize, and later steps only append
      refine Or.inr ⟨t, ?_⟩
      rw [ht, hr, h]
      simp

lemma conv_go_canceled (env : ConvEnv) (op : String) (filt : List (String × Bool))
    (scl total : Nat) (hc : ∀ i, env.cancelAfterEmit i = false) :
    ∀ (remaining : List (String × FileMetadata)) (st : ConvState),
      (start_conversion_go env op filt scl total remaining st).canceled = false := by
  intro remaining
  induction remaining with
  | nil => intro st; rw [start_conversion_go]; exact hc _
  | cons kv rest ih =>
    intro st
    obtain ⟨src, meta⟩ := kv
    rw [start_conversion_go]
    rw [if_neg (by rw [hc st.emitIdx]; simp)]
    exact ih _

lemma conv_go_keys (env : ConvEnv) (op : String) (filt : List (String × Bool))
    (scl total : Nat) (hc : ∀ i, env.cancelAfterEmit i = false) :
    ∀ (remaining : List (String × FileMetadata)) (st : ConvState),
      (start_conversion_go env op filt scl total remaining st).targets.map Prod.fst =
        st.acc.map Prod.fst ++ remaining.map Prod.fst := by
  intro remaining
  induction remaining with
  | nil => intro st; rw [start_conversion_go]; simp
  | cons kv rest ih =>
    intro st
    obtain ⟨src, meta⟩ := kv
    rw [start_conversion_go]
    rw [if_neg (by rw [hc st.emitIdx]; simp)]
    rw [ih]
    simp

lemma conv_go_erroredKeys (env : ConvEnv) (op : String) (filt : List (String × Bool))
    (scl total : Nat) :
    ∀ (remaining : List (String × FileMetadata)) (st : ConvState),
      (start_conversion_go env op filt scl total remaining st).canceled = false →
      (start_conversion_go env op filt scl total remaining st).erroredKeys =
        erroredFilter (start_conversion_go env op filt scl total remaining st).targets := by
  intro remaining
  induction remaining with
  | nil => intro st _h; rw [start_conversion_go]
  | cons kv rest ih =>
    intro st h
    obtain ⟨src, meta⟩ := kv
    rw [start_conversion_go] at h ⊢
    split at h
    next hcan => simp at h
    next hcan => rw [if_neg hcan]; exact ih _ h

lemma conv_go_mem (env : ConvEnv) (op : String) (filt : List (String × Bool))
    (scl total : Nat) (P : String × FileMetadata → Prop)
    (hc : ∀ i, env.cancelAfterEmit i = false)
    (hP : ∀ (fsys : List String) (src : String),
      P (src, (processEntry env op filt scl fsys src new_file_metadata).meta)) :
    ∀ (remaining : List (String × FileMetadata)) (st : ConvState),
      (∀ kv ∈ remaining, kv.2 = new_file_metadata) →
      (∀ kv ∈ st.acc, P kv) →
      ∀ kv ∈ (start_conversion_go env op filt scl total remaining st).targets, P kv := by
  intro remaining
  induction remaining with
  | nil =>
    intro st _hrem hacc kv hkv
    rw [start_conversion_go] at hkv
    exact hacc kv hkv
  | cons hd rest ih =>
    intro st hrem hacc kv hkv
    obtain ⟨src, meta⟩ := hd
    rw [start_conversion_go] at hkv
    rw [if_neg (by rw [hc st.emitIdx]; simp)] at hkv
    have hmeta : meta = new_file_metadata := hrem (src, meta) (List.mem_cons_self _ _)
    refine ih _ (fun kv2 h2 => hrem kv2 (List.mem_cons_of_mem _ h2)) ?_ kv hkv
    intro kv2 h2
    rcases List.mem_append.mp h2 with h3 | h3
    · exact hacc kv2 h3
    · simp only [List.mem_singleton] at h3
      subst h3
      rw [hmeta]
      exact hP st.fsys src

lemma processEntry_handledInc (env : ConvEnv) (op : String)
    (filt : List (String × Bool)) (scl : Nat) (fsys : List String) (src : String) :
    (processEntry env op filt scl fsys src new_file_metadata).handledInc =
      ((env.openImage src).isNone ||
        !(processEntry env op filt scl fsys src new_file_metadata).meta.outputs.isEmpty) := by
  rw [Bool.eq_iff_iff]
  unfold processEntry
  split
  next heq => simp [heq]
  next sz heq =>
    dsimp only
    rw [fold_written_iff]
    simp [heq, List.isEmpty_iff, new_file_metadata, List.length_pos]

lemma conv_go_handled (env : ConvEnv) (op : String) (filt : List (String × Bool))
    (scl total : Nat) (hc : ∀ i, env.cancelAfterEmit i = false) :
    ∀ (remaining : List (String × FileMetadata)) (st : ConvState),
      (∀ kv ∈ remaining, kv.2 = new_file_metadata) →
      st.handled = (st.acc.filter
          (fun kv => (env.openImage kv.1).isNone || !kv.2.outputs.isEmpty)).length →
      (start_conversion_go env op filt scl total remaining st).handled =
        ((start_conversion_go env op filt scl total remaining st).targets.filter
          (fun kv => (env.openImage kv.1).isNone || !kv.2.outputs.isEmpty)).length := by
  intro remaining
  induction remaining with
  | nil =>
    intro st _hrem hacc
    rw [start_conversion_go]
    exact hacc
  | cons hd rest ih =>
    intro st hrem hacc
    obtain ⟨src, meta⟩ := hd
    rw [start_conversion_go]
    rw [if_neg (by rw [hc st.emitIdx]; simp)]
    have hmeta : meta = new_file_metadata := hrem (src, meta) (List.mem_cons_self _ _)
    refine ih _ (fun kv2 h2 => hrem kv2 (List.mem_cons_of_mem _ h2)) ?_
    dsimp only
    rw [List.filter_append, List.length_append, ← hacc]
    congr 1
    rw [hmeta, processEntry_handledInc env op filt scl st.fsys src]
    by_cases hp : ((env.openImage src).isNone ||
        !(processEntry env op filt scl st.fsys src new_file_metadata).meta.outputs.isEmpty) = true
    · rw [if_pos hp]
      simp only [List.filter_cons]
      rw [if_pos hp]
      simp
    · rw [if_neg hp]
      simp only [List.filter_cons]
      rw [if_neg hp]
      simp

lemma processEntry_resizes_100 (env : ConvEnv) (op : String)
    (filt : List (String × Bool)) (scl : Nat) (fsys : List String) (src : String)
    (meta : FileMetadata) (hs : scl = 100) :
    (processEntry env op filt scl fsys src meta).resizes = [] := by
  unfold processEntry
  split
  · rfl
  · exact fold_resizes_100 env op scl src hs _ _

lemma processEntry_first_resize (env : ConvEnv) (op : String)
    (filt : List (String × Bool)) (scl : Nat) (fsys : List String) (src : String)
    (meta : FileMetadata) (w h : Nat) (heq : env.openImage src = some (w, h)) :
    ∀ z t, (processEntry env op filt scl fsys src meta).resizes = z :: t →
      z = (w * scl / 100, h * scl / 100) := by
  intro z t hz
  unfold processEntry at hz
  rw [heq] at hz
  dsimp only at hz
  rcases fold_first_resize env op scl src (enabled_exts filt)
      ⟨(w, h), meta, fsys, false, []⟩ rfl with ⟨h1, _⟩ | ⟨t2, h1⟩
  · rw [h1] at hz
    exact absurd hz (List.noConfusion)
  · rw [h1] at hz
    exact (List.cons.injEq _ _ _ _ ▸ hz).1.symm ▸ rfl

lemma conv_go_resize_100 (env : ConvEnv) (op : String) (filt : List (String × Bool))
    (scl total : Nat) (hs : scl = 100) (hc : ∀ i, env.cancelAfterEmit i = false) :
    ∀ (remaining : List (String × FileMetadata)) (st : ConvState),
      (start_conversion_go env op filt scl total remaining st).resizeCalls =
        st.resizeCalls := by
  intro remaining
  induction remaining with
  | nil => intro st; rw [start_conversion_go]
  | cons hd rest ih =>
    intro st
    obtain ⟨src, meta⟩ := hd
    rw [start_conversion_go]
    rw [if_neg (by rw [hc st.emitIdx]; simp)]
    rw [ih]
    dsimp only
    rw [processEntry_resizes_100 env op filt scl st.fsys src meta hs]
    simp

lemma conv_go_resize_notmem (env : ConvEnv) (op : String) (filt : List (String × Bool))
    (scl total : Nat) (hc : ∀ i, env.cancelAfterEmit i = false) (p : String) :
    ∀ (remaining : List (String × FileMetadata)) (st : ConvState),
      p ∉ remaining.map Prod.fst →
      (start_conversion_go env op filt scl total remaining st).resizeCalls.filter
          (fun t => t.1 == p) =
        st.resizeCalls.filter (fun t => t.1 == p) := by
  intro remaining
  induction remaining with
  | nil => intro st _h; rw [start_conversion_go]
  | cons hd rest ih =>
    intro st hnot
    obtain ⟨src, meta⟩ := hd
    rw [start_conversion_go]
    rw [if_neg (by rw [hc st.emitIdx]; simp)]
    have hsrc : src ≠ p := by
      intro hcon
      exact hnot (by simp [hcon])
    rw [ih _ (fun hcon => hnot (List.mem_cons_of_mem _ hcon))]
    dsimp only
    rw [List.filter_append]
    have hnil : ((processEntry env op filt scl st.fsys src meta).resizes.map
        (fun z => (src, z.1, z.2))).filter (fun t => t.1 == p) = [] := by
      rw [List.filter_eq_nil_iff]
      intro a ha
      obtain ⟨z, _, rfl⟩ := List.mem_map.mp ha
      simp [hsrc]
    rw [hnil]
    simp

lemma conv_go_resize_mem (env : ConvEnv) (op : String) (filt : List (String × Bool))
    (scl total : Nat) (hc : ∀ i, env.cancelAfterEmit i = false) (p : String) :
    ∀ (remaining : List (String × FileMetadata)) (st : ConvState),
      (remaining.map Prod.fst).Nodup →
      ∀ meta0, (p, meta0) ∈ remaining →
      st.resizeCalls.filter (fun t => t.1 == p) = [] →
      ∃ fsys, (start_conversion_go env op filt scl total remaining st).resizeCalls.filter
          (fun t => t.1 == p) =
        ((processEntry env op filt scl fsys p meta0).resizes).map
          (fun z => (p, z.1, z.2)) := by
  intro remaining
  induction remaining with
  | nil =>
    intro st _hnd meta0 hmem
    exact absurd hmem (List.not_mem_nil _)
  | cons hd rest ih =>
    intro st hnd meta0 hmem hnil
    obtain ⟨src, meta⟩ := hd
    rw [start_conversion_go]
    rw [if_neg (by rw [hc st.emitIdx]; simp)]
    rcases List.mem_cons.mp hmem with hhd | htl
    · injection hhd with hp hm
      subst hp
      subst hm
      have hnotrest : p ∉ rest.map Prod.fst := by
        have := hnd
        rw [List.map_cons, List.nodup_cons] at this
        exact this.1
      rw [conv_go_resize_notmem env op filt scl total hc p rest _ hnotrest]
      dsimp only
      rw [List.filter_append, hnil]
      refine ⟨st.fsys, ?_⟩
      rw [List.nil_append, List.filter_eq_self.mpr]
      intro a ha
      obtain ⟨z, _, rfl⟩ := List.mem_map.mp ha
      simp
    · have hsrc : src ≠ p := by
        intro hcon
        rw [List.map_cons, List.nodup_cons] at hnd
        exact hnd.1 (List.mem_map.mpr ⟨(p, meta0), htl, hcon.symm⟩)
      refine ih _ ?_ meta0 htl ?_
      · rw [List.map_cons, List.nodup_cons] at hnd
        exact hnd.2
      · dsimp only
        rw [List.filter_append, hnil]
        rw [List.nil_append, List.filter_eq_nil_iff]
        intro a ha
        obtain ⟨z, _, rfl⟩ := List.mem_map.mp ha
        simp [hsrc]

lemma safe_go_not_contains (fsys : List String) (d b e : String)
    (fuel counter : Nat) (current : String)
    (h : fsys.contains current = false) :
    safe_go fsys d b e (fuel + 1) counter current = .ok current := by
  have hnc : ¬(fsys.contains current = true) := by
    intro hcon
    rw [h] at hcon
    exact Bool.false_ne_true hcon
  rw [safe_go, if_neg hnc]

lemma safe_go_finds (fsys : List String) (d b e : String) (c : Nat)
    (hc : c ≤ 9999) (hfree : fsys.contains (candNum d b e c) = false)
    (hbusy : ∀ j, j < c → fsys.contains (candNum d b e j) = true) :
    ∀ (fuel counter : Nat) (current : String), counter ≤ c →
      fsys.contains current = true → c + 2 ≤ counter + fuel →
      safe_go fsys d b e fuel counter current = .ok (candNum d b e c) := by
  intro fuel
  induction fuel with
  | zero =>
    intro counter current hcount _hcur hfuel
    omega
  | succ f ih =>
    intro counter current hcount hcur hfuel
    rw [safe_go, if_pos (by rw [hcur])]
    rw [if_neg (by omega)]
    by_cases hcc : counter = c
    · subst hcc
      obtain ⟨f2, rfl⟩ : ∃ f2, f = f2 + 1 := ⟨f - 1, by omega⟩
      exact safe_go_not_contains fsys d b e f2 (counter + 1) _ hfree
    · exact ih (counter + 1) (candNum d b e counter) (by omega)
        (hbusy counter (by omega)) (by omega)

lemma safe_go_exhausts (fsys : List String) (d b e : String)
    (hall : ∀ c, c ≤ 9999 → fsys.contains (candNum d b e c) = true) :
    ∀ (fuel counter : Nat) (current : String),
      fsys.contains current = true → counter ≤ 10000 →
      10001 ≤ counter + fuel →
      safe_go fsys d b e fuel counter current = .error () := by
  intro fuel
  induction fuel with
  | zero =>
    intro counter current _hcur hcount hfuel
    omega
  | succ f ih =>
    intro counter current hcur hcount hfuel
    rw [safe_go, if_pos (by rw [hcur])]
    by_cases hcc : counter = 10000
    · rw [if_pos hcc]
    · rw [if_neg hcc]
      exact ih (counter + 1) (candNum d b e counter)
        (hall counter (by omega)) (by omega) (by omega)

/-- Claim C1 (confirmed): during batch conversion (no cancellation
requested, fresh target entries), a per-file error never aborts the batch:
the run completes with canceled false and every key still present; an entry
whose open fails ends with exactly one ImageOpenError record and zero
outputs; every successfully opened entry ends with exactly one record per
enabled output format (an output record on success, an ERR_IMAGE_SAVE or
unknown-error record on failure, never an open error). -/
theorem C1_partial_failure (env : ConvEnv) (op : String)
    (filt : List (String × Bool)) (scl : Nat) (fsys0 : List String)
    (t0 : List (String × FileMetadata))
    (hc : ∀ i, env.cancelAfterEmit i = false)
    (hinit : ∀ kv ∈ t0, kv.2 = new_file_metadata) :
    (start_conversion env op filt scl fsys0 t0).canceled = false ∧
    (start_conversion env op filt scl fsys0 t0).targets.map Prod.fst =
      t0.map Prod.fst ∧
    ∀ kv ∈ (start_conversion env op filt scl fsys0 t0).targets,
      (env.openImage kv.1 = none →
        kv.2.errors = [ErrorRecord.imageOpen] ∧ kv.2.outputs = []) ∧
      (env.openImage kv.1 ≠ none →
        kv.2.outputs.length + kv.2.errors.length = (enabled_exts filt).length ∧
        ∀ e2 ∈ kv.2.errors,
          ∃ x, e2 = ErrorRecord.imageSave x ∨ e2 = ErrorRecord.unknownError x) := by
  unfold start_conversion
  refine ⟨conv_go_canceled env op filt scl _ hc t0 _, ?_, ?_⟩
  · rw [conv_go_keys env op filt scl _ hc t0 _]
    simp
  · refine conv_go_mem env op filt scl _ _ hc ?_ t0 _ hinit (by simp)
    intro fsys src
    constructor
    · intro hopen
      unfold processEntry
      rw [hopen]
      exact ⟨rfl, rfl⟩
    · intro hopen
      obtain ⟨sz, hsz⟩ := Option.ne_none_iff_exists.mp hopen
      unfold processEntry
      rw [← hsz]
      dsimp only
      constructor
      · have := fold_record_count env op scl src (enabled_exts filt)
          ⟨sz, new_file_metadata, fsys, false, []⟩
        simpa [new_file_metadata] using this
      · exact fold_error_shape env op scl src (enabled_exts filt)
          ⟨sz, new_file_metadata, fsys, false, []⟩ (by simp [new_file_metadata])

theorem C1_witness :
    (∀ kv ∈ ([("d/bad.png", new_file_metadata), ("d/good.png", new_file_metadata)] :
        List (String × FileMetadata)), kv.2 = new_file_metadata) ∧
    ((start_conversion
        ⟨fun p => if p == "d/bad.png" then none else some (4, 4),
          fun _ => SaveOutcome.ok, fun _ => false⟩ "out"
        [("jpg", true), ("png", true)] 100 []
        [("d/bad.png", new_file_metadata), ("d/good.png", new_file_metadata)]).canceled
          = false ∧
      (start_conversion
        ⟨fun p => if p == "d/bad.png" then none else some (4, 4),
          fun _ => SaveOutcome.ok, fun _ => false⟩ "out"
        [("jpg", true), ("png", true)] 100 []
        [("d/bad.png", new_file_metadata), ("d/good.png", new_file_metadata)]).targets.map
          Prod.fst = [("d/bad.png", new_file_metadata),
            ("d/good.png", new_file_metadata)].map Prod.fst ∧
      ∀ kv ∈ (start_conversion
          ⟨fun p => if p == "d/bad.png" then none else some (4, 4),
            fun _ => SaveOutcome.ok, fun _ => false⟩ "out"
          [("jpg", true), ("png", true)] 100 []
          [("d/bad.png", new_file_metadata), ("d/good.png", new_file_metadata)]).targets,
        ((⟨fun p => if p == "d/bad.png" then none else some (4, 4),
            fun _ => SaveOutcome.ok, fun _ => false⟩ : ConvEnv).openImage kv.1 = none →
          kv.2.errors = [ErrorRecord.imageOpen] ∧ kv.2.outputs = []) ∧
        ((⟨fun p => if p == "d/bad.png" then none else some (4, 4),
            fun _ => SaveOutcome.ok, fun _ => false⟩ : ConvEnv).openImage kv.1 ≠ none →
          kv.2.outputs.length + kv.2.errors.length =
            (enabled_exts [("jpg", true), ("png", true)]).length ∧
          ∀ e2 ∈ kv.2.errors,
            ∃ x, e2 = ErrorRecord.imageSave x ∨ e2 = ErrorRecord.unknownError x)) :=
  ⟨by decide,
    C1_partial_failure
      ⟨fun p => if p == "d/bad.png" then none else some (4, 4),
        fun _ => SaveOutcome.ok, fun _ => false⟩ "out"
      [("jpg", true), ("png", true)] 100 []
      [("d/bad.png", new_file_metadata), ("d/good.png", new_file_metadata)]
      (fun _ => rfl) (by decide)⟩

/-- Claim C5 (corrected): after a completed run the handled counter equals
the number of entries that either failed to open or have at least one
successful output; an entry whose open succeeded but whose every enabled
output format failed is not counted (images_written stays false), so the
counter does not in general equal the target-set size. -/
theorem C5_handled_counts (env : ConvEnv) (op : String)
    (filt : List (String × Bool)) (scl : Nat) (fsys0 : List String)
    (t0 : List (String × FileMetadata))
    (hc : ∀ i, env.cancelAfterEmit i = false)
    (hinit : ∀ kv ∈ t0, kv.2 = new_file_metadata) :
    (start_conversion env op filt scl fsys0 t0).handled =
      ((start_conversion env op filt scl fsys0 t0).targets.filter
        (fun kv => (env.openImage kv.1).isNone || !kv.2.outputs.isEmpty)).length := by
  unfold start_conversion
  exact conv_go_handled env op filt scl _ hc t0 _ hinit (by simp)

theorem C5_witness :
    (∀ kv ∈ ([("d/a.png", new_file_metadata)] : List (String × FileMetadata)),
      kv.2 = new_file_metadata) ∧
    (start_conversion ⟨fun _ => some (1, 1), fun _ => SaveOutcome.ioError,
        fun _ => false⟩ "out" [("jpg", true)] 100 []
        [("d/a.png", new_file_metadata)]).handled =
      ((start_conversion ⟨fun _ => some (1, 1), fun _ => SaveOutcome.ioError,
          fun _ => false⟩ "out" [("jpg", true)] 100 []
          [("d/a.png", new_file_metadata)]).targets.filter
        (fun kv => ((⟨fun _ => some (1, 1), fun _ => SaveOutcome.ioError,
            fun _ => false⟩ : ConvEnv).openImage kv.1).isNone ||
          !kv.2.outputs.isEmpty)).length :=
  ⟨by decide,
    C5_handled_counts ⟨fun _ => some (1, 1), fun _ => SaveOutcome.ioError,
        fun _ => false⟩ "out" [("jpg", true)] 100 []
      [("d/a.png", new_file_metadata)] (fun _ => rfl) (by decide)⟩

/-- Counterexample to C5 as stated: one entry whose open succeeds and whose
only enabled format fails to save completes with handled 0, not 1. -/
theorem C5_counterexample :
    (start_conversion ⟨fun _ => some (1, 1), fun _ => SaveOutcome.ioError,
        fun _ => false⟩ "out" [("jpg", true)] 100 []
        [("d/a.png", new_file_metadata)]).canceled = false ∧
    (start_conversion ⟨fun _ => some (1, 1), fun _ => SaveOutcome.ioError,
        fun _ => false⟩ "out" [("jpg", true)] 100 []
        [("d/a.png", new_file_metadata)]).targets.length = 1 ∧
    (start_conversion ⟨fun _ => some (1, 1), fun _ => SaveOutcome.ioError,
        fun _ => false⟩ "out" [("jpg", true)] 100 []
        [("d/a.png", new_file_metadata)]).handled = 0 := by
  decide

/-- Claim C3 (corrected): errored_keys equals the filter of the returned
target set (keys with non-empty errors) for every discovery result starting
from error-free entries, in the completed and canceled cases alike, and for
every completed conversion result; a canceled conversion instead returns a
literal empty errored_keys list — see the counterexample. -/
theorem C3_errored_keys_filter :
    (∀ (env : SearchEnv) (sp : String) (init : List (String × FileMetadata))
        (walk : List WalkEntry),
      (∀ kv ∈ init, kv.2.errors = ([] : List ErrorRecord)) →
      (start_file_search env sp init walk).erroredKeys =
        erroredFilter (start_file_search env sp init walk).targets) ∧
    (∀ (env : ConvEnv) (op : String) (filt : List (String × Bool)) (scl : Nat)
        (fsys0 : List String) (t0 : List (String × FileMetadata)),
      (start_conversion env op filt scl fsys0 t0).canceled = false →
      (start_conversion env op filt scl fsys0 t0).erroredKeys =
        erroredFilter (start_conversion env op filt scl fsys0 t0).targets) := by
  constructor
  · intro env sp init walk hinit
    exact search_go_errored env sp walk init 0 env.startTime [] hinit
  · intro env op filt scl fsys0 t0 hdone
    exact conv_go_erroredKeys env op filt scl _ t0 _ hdone

theorem C3_witness :
    ((start_file_search ⟨0, fun _ => 0, fun _ => false⟩ "s" [] []).erroredKeys =
      erroredFilter (start_file_search ⟨0, fun _ => 0, fun _ => false⟩
        "s" [] []).targets) ∧
    ((start_conversion ⟨fun _ => none, fun _ => SaveOutcome.ok, fun _ => false⟩
        "o" [] 100 [] []).erroredKeys =
      erroredFilter (start_conversion ⟨fun _ => none, fun _ => SaveOutcome.ok,
        fun _ => false⟩ "o" [] 100 [] []).targets) :=
  ⟨C3_errored_keys_filter.1 ⟨0, fun _ => 0, fun _ => false⟩ "s" [] []
      (by simp),
    C3_errored_keys_filter.2 ⟨fun _ => none, fun _ => SaveOutcome.ok,
      fun _ => false⟩ "o" [] 100 [] [] (by decide)⟩

/-- Counterexample to C3 as stated: a canceled conversion whose returned
errored_keys is empty while the returned target set has an entry with a
non-empty errors list. -/
theorem C3_counterexample :
    (start_conversion ⟨fun p => if p == "d/a.png" then none else some (1, 1),
        fun _ => SaveOutcome.ok, fun i => i == 1⟩ "out" [("jpg", true)] 100 []
        [("d/a.png", new_file_metadata), ("d/b.png", new_file_metadata)]).canceled
      = true ∧
    (start_conversion ⟨fun p => if p == "d/a.png" then none else some (1, 1),
        fun _ => SaveOutcome.ok, fun i => i == 1⟩ "out" [("jpg", true)] 100 []
        [("d/a.png", new_file_metadata), ("d/b.png", new_file_metadata)]).erroredKeys
      = [] ∧
    erroredFilter (start_conversion
        ⟨fun p => if p == "d/a.png" then none else some (1, 1),
        fun _ => SaveOutcome.ok, fun i => i == 1⟩ "out" [("jpg", true)] 100 []
        [("d/a.png", new_file_metadata), ("d/b.png", new_file_metadata)]).targets
      = ["d/a.png"] := by
  decide

/-- Claim C2 (corrected): when discovery observes the cancellation flag at a
poll point it returns canceled true, the engine state reverts (target-set
state rebound to a fresh empty dict, source path unset) and the returned
errored-keys list is empty, but the returned match set is not empty in
general: it is exactly the partial Target Set accumulated from the walk
entries processed before the cancel iteration (the cancel poll happens
before the current iteration's filenames are scanned), because the source
returns the local target_paths alias of the old dict after
clear_source_path rebinds the attribute — see the counterexample. -/
theorem C2_cancel_reverts_state (env : SearchEnv) (source_path : String)
    (init_targets : List (String × FileMetadata)) (walk : List WalkEntry)
    (h : (start_file_search env source_path init_targets walk).canceled = true) :
    (start_file_search env source_path init_targets walk).stateTargets = [] ∧
    (start_file_search env source_path init_targets walk).stateSourcePath = "" ∧
    (start_file_search env source_path init_targets walk).erroredKeys = [] ∧
    ∃ pre entry post, walk = pre ++ entry :: post ∧
      (start_file_search env source_path init_targets walk).targets =
        pre.foldl (fun acc en => addMatches acc en.dirpath en.filenames)
          init_targets := by
  obtain ⟨h1, h2, h3⟩ :=
    search_go_canceled_state env source_path walk init_targets 0 env.startTime [] h
  obtain ⟨pre, entry, post, hsplit, htg⟩ :=
    search_go_canceled_targets env source_path walk init_targets 0 env.startTime [] h
  exact ⟨h1, h2, h3, pre, entry, post, hsplit, htg⟩

set_option maxRecDepth 40000 in
/-- Counterexample to C2 as stated: a discovery run over 100 directories
each holding a matching file, where the cancel flag is observed at the poll
of the 100th walk iteration (the first iteration's poll falls inside the
same wall-clock second, so the cancel check there is skipped).  The run
returns canceled true with a non-empty match set — exactly the matches from
the 99 already-processed directories — even though the engine target-set
state was reset to empty. -/
theorem C2_counterexample :
    (start_file_search ⟨0, fun i => if i = 100 then 5 else 0, fun i => i == 100⟩
        "src" [] (List.replicate 100 ⟨"d", ["a.png"]⟩)).canceled = true ∧
    (start_file_search ⟨0, fun i => if i = 100 then 5 else 0, fun i => i == 100⟩
        "src" [] (List.replicate 100 ⟨"d", ["a.png"]⟩)).targets =
      [("d/a.png", new_file_metadata)] ∧
    (start_file_search ⟨0, fun i => if i = 100 then 5 else 0, fun i => i == 100⟩
        "src" [] (List.replicate 100 ⟨"d", ["a.png"]⟩)).targets ≠ [] ∧
    (start_file_search ⟨0, fun i => if i = 100 then 5 else 0, fun i => i == 100⟩
        "src" [] (List.replicate 100 ⟨"d", ["a.png"]⟩)).stateTargets = [] := by
  decide

set_option maxRecDepth 40000 in
theorem C2_witness :
    (start_file_search ⟨0, fun i => if i = 100 then 7 else 0, fun i => i == 100⟩
        "s2" [] (List.replicate 100 ⟨"e", ["b.png"]⟩)).canceled = true ∧
    ((start_file_search ⟨0, fun i => if i = 100 then 7 else 0, fun i => i == 100⟩
        "s2" [] (List.replicate 100 ⟨"e", ["b.png"]⟩)).stateTargets = [] ∧
      (start_file_search ⟨0, fun i => if i = 100 then 7 else 0, fun i => i == 100⟩
        "s2" [] (List.replicate 100 ⟨"e", ["b.png"]⟩)).stateSourcePath = "" ∧
      (start_file_search ⟨0, fun i => if i = 100 then 7 else 0, fun i => i == 100⟩
        "s2" [] (List.replicate 100 ⟨"e", ["b.png"]⟩)).erroredKeys = [] ∧
      ∃ pre entry post,
        List.replicate 100 (⟨"e", ["b.png"]⟩ : WalkEntry) =
          pre ++ entry :: post ∧
        (start_file_search ⟨0, fun i => if i = 100 then 7 else 0,
            fun i => i == 100⟩ "s2"
            [] (List.replicate 100 ⟨"e", ["b.png"]⟩)).targets =
          pre.foldl (fun acc en => addMatches acc en.dirpath en.filenames) []) :=
  ⟨by decide,
    C2_cancel_reverts_state ⟨0, fun i => if i = 100 then 7 else 0, fun i => i == 100⟩
      "s2" [] (List.replicate 100 ⟨"e", ["b.png"]⟩) (by decide)⟩

/-- Claim C9 (corrected): progress reports are gated by the whole-second
wall clock as well as the iteration count, so in any discovery run during
which the clock never advances a whole second past the start no report is
emitted at all — in particular none for the first file scanned (the source
special-cases the first walk iteration, but the time gate blocks it). -/
theorem C9_no_report_without_time (env : SearchEnv) (source_path : String)
    (init_targets : List (String × FileMetadata)) (walk : List WalkEntry)
    (ht : ∀ i, env.pollTime i ≤ env.startTime) :
    (start_file_search env source_path init_targets walk).reports = [] :=
  search_go_no_reports env source_path ht walk init_targets 0 []

/-- Counterexample to C9 as stated: a discovery run over a non-empty tree
that scans and matches a file but emits no progress report, because no
wall-clock second elapsed at the first poll. -/
theorem C9_counterexample :
    (start_file_search ⟨0, fun _ => 0, fun _ => false⟩ "src" []
        [⟨"d", ["a.png"]⟩]).reports = [] ∧
    (start_file_search ⟨0, fun _ => 0, fun _ => false⟩ "src" []
        [⟨"d", ["a.png"]⟩]).targets = [("d/a.png", new_file_metadata)] := by
  decide

theorem C9_witness :
    (∀ i, SearchEnv.pollTime ⟨3, fun _ => 3, fun _ => false⟩ i ≤
        SearchEnv.startTime ⟨3, fun _ => 3, fun _ => false⟩) ∧
    (start_file_search ⟨3, fun _ => 3, fun _ => false⟩ "s" []
        [⟨"e", ["c.png"]⟩, ⟨"e2", []⟩]).reports = [] :=
  ⟨fun _ => Nat.le_refl 3,
    C9_no_report_without_time ⟨3, fun _ => 3, fun _ => false⟩ "s" []
      [⟨"e", ["c.png"]⟩, ⟨"e2", []⟩] (fun _ => Nat.le_refl 3)⟩

/-- Counterexample to C4 as stated: scale 50 with two enabled formats on a
200 by 100 image issues two resize calls for the one source file, the
second starting from the dimensions of the first resize output. -/
theorem C4_counterexample :
    (start_conversion ⟨fun _ => some (200, 100), fun _ => SaveOutcome.ok,
        fun _ => false⟩ "out" [("jpg", true), ("png", true)] 50 []
        [("d/cat.png", new_file_metadata)]).resizeCalls =
      [("d/cat.png", 100, 50), ("d/cat.png", 50, 25)] ∧
    ((start_conversion ⟨fun _ => some (200, 100), fun _ => SaveOutcome.ok,
        fun _ => false⟩ "out" [("jpg", true), ("png", true)] 50 []
        [("d/cat.png", new_file_metadata)]).resizeCalls.filter
      (fun t => t.1 == "d/cat.png")).length ≠ 1 := by
  decide

/-- Claim C4 (corrected): the resize guard runs inside the per-format loop
and user_image is reassigned, so with scale not equal to 100 each enabled
format triggers its own resize of the current image: with two enabled
formats and scale 50, a (w, h) image is resized to the floor-scaled
dimensions for the first format and the second format receives that first
output scaled again (compounded), for every w and h. -/
theorem C4_resize_per_format (w h : Nat) :
    (start_conversion ⟨fun _ => some (w, h), fun _ => SaveOutcome.ok,
        fun _ => false⟩ "out" [("jpg", true), ("png", true)] 50 []
        [("d/cat.png", new_file_metadata)]).resizeCalls =
      [("d/cat.png", w * 50 / 100, h * 50 / 100),
        ("d/cat.png", w * 50 / 100 * 50 / 100, h * 50 / 100 * 50 / 100)] := by
  rfl

theorem C4_witness :
    (start_conversion ⟨fun _ => some (200, 100), fun _ => SaveOutcome.ok,
        fun _ => false⟩ "out" [("jpg", true), ("png", true)] 50 []
        [("d/cat.png", new_file_metadata)]).resizeCalls =
      [("d/cat.png", 200 * 50 / 100, 100 * 50 / 100),
        ("d/cat.png", 200 * 50 / 100 * 50 / 100, 100 * 50 / 100 * 50 / 100)] :=
  C4_resize_per_format 200 100

/-- Claim C6 (code_bug): the source line testing path existence never calls
the function, so for a non-empty path that does not exist (and is therefore
not a directory) both setters return ERR_PATH_IS_NOT_FOLDER (NotADirectory)
instead of the documented ERR_FOLDER_DOES_NOT_EXIST (PathNotFound). -/
theorem C6_nonexistent_path_result :
    (set_source_path ⟨fun _ => false, fun _ => false, fun p => p⟩
        ⟨"", "", [], false⟩ "missing").1 = ERR_PATH_IS_NOT_FOLDER ∧
    (set_output_path ⟨fun _ => false, fun _ => false, fun p => p⟩
        ⟨"", "", [], false⟩ "missing").1 = ERR_PATH_IS_NOT_FOLDER ∧
    ERR_PATH_IS_NOT_FOLDER ≠ ERR_FOLDER_DOES_NOT_EXIST := by
  decide

/-- Claim C7 (confirmed): in a completed run, scale 100 never invokes the
codec resize at all, and with scale in 1..99 the first resize call issued
for a successfully opened (w, h) image requests exactly
(floor of w times scale over 100, floor of h times scale over 100). -/
theorem C7_scale_first_resize (env : ConvEnv) (op : String)
    (filt : List (String × Bool)) (scl : Nat) (fsys0 : List String)
    (t0 : List (String × FileMetadata)) (p : String) (w h : Nat)
    (hc : ∀ i, env.cancelAfterEmit i = false)
    (hnd : (t0.map Prod.fst).Nodup)
    (hmem : ∃ m, (p, m) ∈ t0)
    (hopen : env.openImage p = some (w, h)) :
    (scl = 100 → (start_conversion env op filt scl fsys0 t0).resizeCalls = []) ∧
    (1 ≤ scl → scl ≤ 99 →
      ∀ x l, (start_conversion env op filt scl fsys0 t0).resizeCalls.filter
          (fun t => t.1 == p) = x :: l →
        x = (p, w * scl / 100, h * scl / 100)) := by
  constructor
  · intro hs
    unfold start_conversion
    rw [conv_go_resize_100 env op filt scl _ hs hc t0 _]
  · intro _h1 _h99 x l hfilter
    obtain ⟨m, hm⟩ := hmem
    unfold start_conversion at hfilter
    obtain ⟨fsys, heq⟩ := conv_go_resize_mem env op filt scl t0.length hc p t0
      ⟨[], fsys0, 0, 0, [], [], ""⟩ hnd m hm (by simp)
    rw [heq] at hfilter
    rcases hres : (processEntry env op filt scl fsys p m).resizes with _ | ⟨z, t⟩
    · rw [hres] at hfilter
      exact absurd hfilter (List.noConfusion)
    · rw [hres] at hfilter
      have hz := processEntry_first_resize env op filt scl fsys p m w h hopen z t hres
      rw [List.map_cons] at hfilter
      have hx : x = (p, z.1, z.2) := (List.cons.injEq _ _ _ _ ▸ hfilter).1.symm
      rw [hx, hz]

theorem C7_witness :
    ((([("d/cat.png", new_file_metadata)] : List (String × FileMetadata)).map
        Prod.fst).Nodup) ∧
    ((50 = 100 → (start_conversion ⟨fun _ => some (200, 100),
          fun _ => SaveOutcome.ok, fun _ => false⟩ "out" [("jpg", true)] 50 []
          [("d/cat.png", new_file_metadata)]).resizeCalls = []) ∧
      (1 ≤ 50 → 50 ≤ 99 →
        ∀ x l, (start_conversion ⟨fun _ => some (200, 100),
            fun _ => SaveOutcome.ok, fun _ => false⟩ "out" [("jpg", true)] 50 []
            [("d/cat.png", new_file_metadata)]).resizeCalls.filter
            (fun t => t.1 == "d/cat.png") = x :: l →
          x = ("d/cat.png", 200 * 50 / 100, 100 * 50 / 100))) :=
  ⟨by decide,
    C7_scale_first_resize ⟨fun _ => some (200, 100), fun _ => SaveOutcome.ok,
        fun _ => false⟩ "out" [("jpg", true)] 50 []
      [("d/cat.png", new_file_metadata)] "d/cat.png" 200 100
      (fun _ => rfl) (by decide) ⟨new_file_metadata, by decide⟩ rfl⟩

/-- Claim C8 (confirmed): get_safe_output_path returns the plain
dir/base.ext candidate when it does not exist; otherwise the first
non-existing zero-padded numbered candidate dir/base.NNNN.ext with the
counter starting at 0000; and it fails with the name-exhaustion error when
the base name and all 10000 numbered candidates 0000..9999 exist. -/
theorem C8_safe_output_naming (fsys : List String)
    (output_path src_path extension : String) :
    (fsys.contains (candBase output_path (basename (splitext src_path).1)
        extension) = false →
      get_safe_output_path fsys output_path src_path extension =
        .ok (candBase output_path (basename (splitext src_path).1) extension)) ∧
    (fsys.contains (candBase output_path (basename (splitext src_path).1)
        extension) = true →
      ∀ c, c ≤ 9999 →
        fsys.contains (candNum output_path (basename (splitext src_path).1)
          extension c) = false →
        (∀ j, j < c → fsys.contains (candNum output_path
          (basename (splitext src_path).1) extension j) = true) →
        get_safe_output_path fsys output_path src_path extension =
          .ok (candNum output_path (basename (splitext src_path).1) extension c)) ∧
    (fsys.contains (candBase output_path (basename (splitext src_path).1)
        extension) = true →
      (∀ c, c ≤ 9999 → fsys.contains (candNum output_path
        (basename (splitext src_path).1) extension c) = true) →
      get_safe_output_path fsys output_path src_path extension = .error ()) := by
  refine ⟨?_, ?_, ?_⟩
  · intro h
    exact safe_go_not_contains fsys output_path _ extension 10001 0 _ h
  · intro hbase c hc hfree hbusy
    exact safe_go_finds fsys output_path _ extension c hc hfree hbusy 10002 0 _
      (by omega) hbase (by omega)
  · intro hbase hall
    exact safe_go_exhausts fsys output_path _ extension hall 10002 0 _ hbase
      (by omega) (by omega)

theorem C8_witness :
    ((["out/cat.png"] : List String).contains
      (candBase "out" (basename (splitext "d/cat.png").1) "png") = true) ∧
    get_safe_output_path ["out/cat.png"] "out" "d/cat.png" "png" =
      .ok (candNum "out" (basename (splitext "d/cat.png").1) "png" 0) :=
  ⟨by decide,
    (C8_safe_output_naming ["out/cat.png"] "out" "d/cat.png" "png").2.1
      (by decide) 0 (by decide) (by decide)
      (fun j hj => absurd hj (Nat.not_lt_zero j))⟩

/-- Claim C10 (confirmed): when the safe-output-path search exhausts its
naming cap inside the format loop, the generic per-format handler catches
it: the entry records exactly one unknown-error record for that format (not
an ERR_IMAGE_SAVE record), no output and no other state change for that
format, and a conversion run (no cancellation) still completes with
canceled false and every target entry processed. -/
theorem C10_exhaustion_handled (env : ConvEnv) (op : String)
    (filt : List (String × Bool)) (scl : Nat) (src ext : String)
    (st : FormatState)
    (hexh : get_safe_output_path st.fsys op src ext = .error ())
    (fsys0 : List String) (t0 : List (String × FileMetadata))
    (hc : ∀ i, env.cancelAfterEmit i = false) :
    processFormat env op scl src st ext =
      { st with meta := ⟨st.meta.errors ++ [ErrorRecord.unknownError ext],
          st.meta.outputs⟩ } ∧
    (start_conversion env op filt scl fsys0 t0).canceled = false ∧
    (start_conversion env op filt scl fsys0 t0).targets.map Prod.fst =
      t0.map Prod.fst := by
  refine ⟨?_, ?_, ?_⟩
  · unfold processFormat
    rw [hexh]
  · exact conv_go_canceled env op filt scl _ hc t0 _
  · unfold start_conversion
    rw [conv_go_keys env op filt scl _ hc t0 _]
    simp

theorem C10_witness :
    (get_safe_output_path
        (candBase "out" "cat" "png" ::
          (List.range 10000).map (candNum "out" "cat" "png"))
        "out" "d/cat.png" "png" = .error ()) ∧
    (processFormat ⟨fun _ => some (2, 2), fun _ => SaveOutcome.ok, fun _ => false⟩
        "out" 100 "d/cat.png"
        ⟨(2, 2), new_file_metadata,
          candBase "out" "cat" "png" ::
            (List.range 10000).map (candNum "out" "cat" "png"), false, []⟩ "png" =
      { img := (2, 2),
        meta := ⟨new_file_metadata.errors ++ [ErrorRecord.unknownError "png"],
          new_file_metadata.outputs⟩,
        fsys := candBase "out" "cat" "png" ::
          (List.range 10000).map (candNum "out" "cat" "png"),
        images_written := false, resizes := [] } ∧
      (start_conversion ⟨fun _ => some (2, 2), fun _ => SaveOutcome.ok,
          fun _ => false⟩ "out" [("png", true)] 100 []
          [("d/x.png", new_file_metadata)]).canceled = false ∧
      (start_conversion ⟨fun _ => some (2, 2), fun _ => SaveOutcome.ok,
          fun _ => false⟩ "out" [("png", true)] 100 []
          [("d/x.png", new_file_metadata)]).targets.map Prod.fst =
        [("d/x.png", new_file_metadata)].map Prod.fst) := by
  have hall : ∀ c, c ≤ 9999 →
      (candBase "out" "cat" "png" ::
        (List.range 10000).map (candNum "out" "cat" "png")).contains
        (candNum "out" "cat" "png" c) = true := by
    intro c hcle
    have hmem : candNum "out" "cat" "png" c ∈
        candBase "out" "cat" "png" ::
          (List.range 10000).map (candNum "out" "cat" "png") :=
      List.mem_cons_of_mem _ (List.mem_map.mpr ⟨c, List.mem_range.mpr (by omega), rfl⟩)
    exact List.elem_eq_true_of_mem hmem
  have hbase : (candBase "out" "cat" "png" ::
      (List.range 10000).map (candNum "out" "cat" "png")).contains
      (candBase "out" "cat" "png") = true :=
    List.elem_eq_true_of_mem (List.mem_cons_self _ _)
  have hexh : get_safe_output_path
      (candBase "out" "cat" "png" ::
        (List.range 10000).map (candNum "out" "cat" "png"))
      "out" "d/cat.png" "png" = .error () :=
    safe_go_exhausts _ "out" "cat" "png" hall 10002 0 _ hbase (by omega) (by omega)
  exact ⟨hexh,
    C10_exhaustion_handled ⟨fun _ => some (2, 2), fun _ => SaveOutcome.ok,
        fun _ => false⟩ "out" [("png", true)] 100 "d/cat.png" "png"
      ⟨(2, 2), new_file_metadata,
        candBase "out" "cat" "png" ::
          (List.range 10000).map (candNum "out" "cat" "png"), false, []⟩
      hexh [] [("d/x.png", new_file_metadata)] (fun _ => rfl)⟩

end BatchImgConv
